import Mathlib

/-!
Shallow embedding of the `pjutil` package of a CI job-orchestration
repository (prow): the ProwJob spec builders (`PresubmitSpec`,
`PostsubmitSpec`, `PeriodicSpec`, `BatchSpec`), record creation
(`NewProwJob`), pod materialization (`ProwJobToPod`), the state
partitioner (`PartitionActive`) and the latest-job selector
(`GetLatestProwJobs`), together with theorems checking the
specification's claims about them.

Go maps are modelled as functions into `Option`, Go channels as a
capacity + item-list pair, `metav1.Time` as a natural number (`0` is the
zero time, `After` is strict `>`), and the impure inputs of the source
(UUID generation, wall-clock now, the external environment deriver) are
explicit parameters.
-/

namespace Pjutil

/-! ## Definitions: the shallow embedding and its fixtures -/

/-- Modelled from the spec: a single serialized environment entry of a
container (`v1.EnvVar`: name and value). -/
structure EnvVar where
  name : String
  value : String
deriving DecidableEq, Repr

/-- Modelled from the spec: a container of a pod template; only the
fields the materializer touches are kept (name and environment list). -/
structure Container where
  name : String
  env : List EnvVar
deriving DecidableEq, Repr

/-- Modelled from the spec: a pod template (`v1.PodSpec`) with its
restart policy, containers and init-containers. -/
structure PodSpec where
  restartPolicy : String
  containers : List Container
  initContainers : List Container
deriving DecidableEq, Repr

/-- Modelled from the spec: one pull-request reference of a `RefSet`. -/
structure Pull where
  number : Int
  author : String
  sha : String
deriving DecidableEq, Repr

/-- Modelled from the spec: source-control references a job run is
evaluated against (`kube.Refs`): org/repo identifiers, branch, base SHA
and the ordered pull-request references. -/
structure Refs where
  org : String
  repo : String
  baseRef : String
  baseSHA : String
  pulls : List Pull
deriving DecidableEq, Repr

/-- The zero value of `Refs` (a Go struct field left unset). -/
def Refs.zero : Refs := ⟨"", "", "", "", []⟩

/-- Modelled from the spec: the job-type tag of a spec
(`kube.ProwJobType`). -/
inductive ProwJobType where
  | presubmit
  | postsubmit
  | periodic
  | batch
deriving DecidableEq, Repr

/-- The string value of each job-type constant (`string(pj.Spec.Type)`). -/
def ProwJobType.toStr : ProwJobType → String
  | .presubmit => "presubmit"
  | .postsubmit => "postsubmit"
  | .periodic => "periodic"
  | .batch => "batch"

/-- Modelled from the spec: the lifecycle state of a record
(`kube.ProwJobState`). -/
inductive ProwJobState where
  | triggered
  | pending
  | success
  | failure
  | aborted
  | error
deriving DecidableEq, Repr

/-- Modelled from the spec: `kube.KubernetesAgent`, the
container-orchestration agent kind. -/
def KubernetesAgent : String := "kubernetes"

/-- Modelled from the spec: `kube.DefaultClusterAlias`, the well-known
default cluster alias. -/
def DefaultClusterAlias : String := "default"

/-- Modelled from the spec: `kube.CreatedByProw`, the provenance label
key set on materialized pods. -/
def CreatedByProw : String := "created-by-prow"

/-- Modelled from the spec: `kube.ProwJobTypeLabel`, the job-type label
key set on materialized pods. -/
def ProwJobTypeLabel : String := "prow.k8s.io/type"

/-- Modelled from the spec: the `kube` annotation key under which the
pod carries its job name. -/
def ProwJobAnnKey : String := "prow.k8s.io/job"

/-- Modelled from the spec: `kube.ProwJobSpec` - fully resolved
execution intent. `refs` is a plain struct field in the source, so its
unset state is the zero value `Refs.zero`; `podSpec` is optional
(present iff copied by a builder). The recursive `runAfterSuccess`
chain forces an inductive rather than a structure. -/
inductive ProwJobSpec where
  | mk (type : ProwJobType) (job : String) (refs : Refs) (report : Bool)
      (context : String) (rerunCommand : String) (maxConcurrency : Int)
      (agent : String) (podSpec : Option PodSpec) (cluster : String)
      (runAfterSuccess : List ProwJobSpec)

def ProwJobSpec.type : ProwJobSpec → ProwJobType
  | .mk t _ _ _ _ _ _ _ _ _ _ => t

def ProwJobSpec.job : ProwJobSpec → String
  | .mk _ j _ _ _ _ _ _ _ _ _ => j

def ProwJobSpec.refs : ProwJobSpec → Refs
  | .mk _ _ r _ _ _ _ _ _ _ _ => r

def ProwJobSpec.report : ProwJobSpec → Bool
  | .mk _ _ _ rep _ _ _ _ _ _ _ => rep

def ProwJobSpec.context : ProwJobSpec → String
  | .mk _ _ _ _ cx _ _ _ _ _ _ => cx

def ProwJobSpec.rerunCommand : ProwJobSpec → String
  | .mk _ _ _ _ _ rc _ _ _ _ _ => rc

def ProwJobSpec.maxConcurrency : ProwJobSpec → Int
  | .mk _ _ _ _ _ _ mc _ _ _ _ => mc

def ProwJobSpec.agent : ProwJobSpec → String
  | .mk _ _ _ _ _ _ _ ag _ _ _ => ag

def ProwJobSpec.podSpec : ProwJobSpec → Option PodSpec
  | .mk _ _ _ _ _ _ _ _ ps _ _ => ps

def ProwJobSpec.cluster : ProwJobSpec → String
  | .mk _ _ _ _ _ _ _ _ _ cl _ => cl

def ProwJobSpec.runAfterSuccess : ProwJobSpec → List ProwJobSpec
  | .mk _ _ _ _ _ _ _ _ _ _ ras => ras

/-- Modelled from the spec: the status block of a record: start
timestamp and lifecycle state. -/
structure ProwJobStatus where
  startTime : Nat
  state : ProwJobState

/-- Modelled from the spec: object metadata (name, labels,
annotations); label and annotation maps are functions into `Option`. -/
structure ObjectMeta where
  name : String
  labels : String → Option String
  annotations : String → Option String

/-- Modelled from the spec: `kube.ProwJob`, a stateful runtime record. -/
structure ProwJob where
  apiVersion : String
  kind : String
  metadata : ObjectMeta
  spec : ProwJobSpec
  status : ProwJobStatus

/-- Modelled from the spec: a submittable execution unit (`v1.Pod`). -/
structure Pod where
  metadata : ObjectMeta
  spec : PodSpec

/-- Modelled from the spec: `config.Presubmit`, a presubmit job
template; only the fields the builders read are kept. -/
inductive Presubmit where
  | mk (name : String) (skipReport : Bool) (context : String)
      (rerunCommand : String) (maxConcurrency : Int) (agent : String)
      (spec : Option PodSpec) (cluster : String)
      (runAfterSuccess : List Presubmit)

def Presubmit.name : Presubmit → String
  | .mk n _ _ _ _ _ _ _ _ => n

def Presubmit.skipReport : Presubmit → Bool
  | .mk _ sr _ _ _ _ _ _ _ => sr

def Presubmit.context : Presubmit → String
  | .mk _ _ cx _ _ _ _ _ _ => cx

def Presubmit.rerunCommand : Presubmit → String
  | .mk _ _ _ rc _ _ _ _ _ => rc

def Presubmit.maxConcurrency : Presubmit → Int
  | .mk _ _ _ _ mc _ _ _ _ => mc

def Presubmit.agent : Presubmit → String
  | .mk _ _ _ _ _ ag _ _ _ => ag

def Presubmit.spec : Presubmit → Option PodSpec
  | .mk _ _ _ _ _ _ sp _ _ => sp

def Presubmit.cluster : Presubmit → String
  | .mk _ _ _ _ _ _ _ cl _ => cl

def Presubmit.runAfterSuccess : Presubmit → List Presubmit
  | .mk _ _ _ _ _ _ _ _ ras => ras

/-- Modelled from the spec: `config.Postsubmit`, a postsubmit job
template; only the fields the builders read are kept. -/
inductive Postsubmit where
  | mk (name : String) (maxConcurrency : Int) (agent : String)
      (spec : Option PodSpec) (cluster : String)
      (runAfterSuccess : List Postsubmit)

def Postsubmit.name : Postsubmit → String
  | .mk n _ _ _ _ _ => n

def Postsubmit.maxConcurrency : Postsubmit → Int
  | .mk _ mc _ _ _ _ => mc

def Postsubmit.agent : Postsubmit → String
  | .mk _ _ ag _ _ _ => ag

def Postsubmit.spec : Postsubmit → Option PodSpec
  | .mk _ _ _ sp _ _ => sp

def Postsubmit.cluster : Postsubmit → String
  | .mk _ _ _ _ cl _ => cl

def Postsubmit.runAfterSuccess : Postsubmit → List Postsubmit
  | .mk _ _ _ _ _ ras => ras

/-- Modelled from the spec: `config.Periodic`, a periodic job template;
only the fields the builders read are kept. -/
inductive Periodic where
  | mk (name : String) (agent : String) (spec : Option PodSpec)
      (cluster : String) (runAfterSuccess : List Periodic)

def Periodic.name : Periodic → String
  | .mk n _ _ _ _ => n

def Periodic.agent : Periodic → String
  | .mk _ ag _ _ _ => ag

def Periodic.spec : Periodic → Option PodSpec
  | .mk _ _ sp _ _ => sp

def Periodic.cluster : Periodic → String
  | .mk _ _ _ cl _ => cl

def Periodic.runAfterSuccess : Periodic → List Periodic
  | .mk _ _ _ _ ras => ras

/-- `PresubmitSpec` initializes a ProwJobSpec for a given presubmit job:
type tag, name, refs, report/context/rerun/max-concurrency scalars,
agent, the agent-conditional pod template and cluster alias (with the
well-known default), and the recursively built continuation chain. -/
def PresubmitSpec : Presubmit → Refs → ProwJobSpec
  | .mk name skipReport cx rc mc agent sp cl ras, refs =>
    .mk .presubmit name refs (!skipReport) cx rc mc agent
      (if agent = KubernetesAgent then sp else none)
      (if agent = KubernetesAgent then
        (if cl = "" then DefaultClusterAlias else cl) else "")
      (ras.attach.map fun c => PresubmitSpec c.1 refs)
termination_by p _ => sizeOf p
decreasing_by
  have := List.sizeOf_lt_of_mem c.2
  simp only [Presubmit.mk.sizeOf_spec]
  omega

/-- `PostsubmitSpec` initializes a ProwJobSpec for a given postsubmit
job; like the presubmit builder but without report/context/rerun. -/
def PostsubmitSpec : Postsubmit → Refs → ProwJobSpec
  | .mk name mc agent sp cl ras, refs =>
    .mk .postsubmit name refs false "" "" mc agent
      (if agent = KubernetesAgent then sp else none)
      (if agent = KubernetesAgent then
        (if cl = "" then DefaultClusterAlias else cl) else "")
      (ras.attach.map fun c => PostsubmitSpec c.1 refs)
termination_by p _ => sizeOf p
decreasing_by
  have := List.sizeOf_lt_of_mem c.2
  simp only [Postsubmit.mk.sizeOf_spec]
  omega

/-- `PeriodicSpec` initializes a ProwJobSpec for a given periodic job;
no refs are set anywhere (the field keeps its zero value). -/
def PeriodicSpec : Periodic → ProwJobSpec
  | .mk name agent sp cl ras =>
    .mk .periodic name Refs.zero false "" "" 0 agent
      (if agent = KubernetesAgent then sp else none)
      (if agent = KubernetesAgent then
        (if cl = "" then DefaultClusterAlias else cl) else "")
      (ras.attach.map fun c => PeriodicSpec c.1)
termination_by p => sizeOf p
decreasing_by
  have := List.sizeOf_lt_of_mem c.2
  simp only [Periodic.mk.sizeOf_spec]
  omega

/-- `BatchSpec` initializes a ProwJobSpec for a given batch job and ref
spec; it additionally propagates the template's context for the Submit
Queue's batch-completeness consumer. -/
def BatchSpec : Presubmit → Refs → ProwJobSpec
  | .mk name _ cx _ _ agent sp cl ras, refs =>
    .mk .batch name refs false cx "" 0 agent
      (if agent = KubernetesAgent then sp else none)
      (if agent = KubernetesAgent then
        (if cl = "" then DefaultClusterAlias else cl) else "")
      (ras.attach.map fun c => BatchSpec c.1 refs)
termination_by p _ => sizeOf p
decreasing_by
  have := List.sizeOf_lt_of_mem c.2
  simp only [Presubmit.mk.sizeOf_spec]
  omega

/-- `NewProwJob` initializes a ProwJob out of a ProwJobSpec. The UUID
produced by the source's generator and the wall-clock time of
`metav1.Now()` are impure inputs, passed in explicitly. -/
def NewProwJob (spec : ProwJobSpec) (labels : String → Option String)
    (uid : String) (now : Nat) : ProwJob :=
  { apiVersion := "prow.k8s.io/v1"
    kind := "ProwJob"
    metadata := { name := uid, labels := labels, annotations := fun _ => none }
    spec := spec
    status := { startTime := now, state := .triggered } }

/-- The digit characters of `n` in base 10, most significant first,
computed with explicit fuel (the model of `fmt`'s `%d` rendering). -/
def decChars : Nat → Nat → List Char
  | 0, _ => []
  | fuel + 1, n =>
    if n < 10 then [Nat.digitChar n]
    else decChars fuel (n / 10) ++ [Nat.digitChar (n % 10)]

/-- Decimal rendering of a natural number, the model of
`fmt.Sprintf` with verb `%d`. -/
def natToDecimal (n : Nat) : String := ⟨decChars (n + 1) n⟩

/-- The default name `fmt.Sprintf` gives a nameless container: the pod
(record) name, a dash, and the container's positional index. -/
def defaultContainerName (pjName : String) (i : Nat) : String :=
  pjName ++ "-" ++ natToDecimal i

/-- `kubeEnv` transforms a mapping of environment variables into their
serialized form for a PodSpec. The Go map is modelled as an ordered
association list, fixing one of the source's nondeterministic
iteration orders. -/
def kubeEnv (environment : List (String × String)) : List EnvVar :=
  environment.map fun kv => { name := kv.1, value := kv.2 }

/-- The loop body of `ProwJobToPod` for the container at index `i`:
copy the container, give a nameless one its default name, and append
the serialized environment after its existing entries. -/
def containerTransform (pjName : String) (extra : List EnvVar) (i : Nat)
    (c : Container) : Container :=
  let c1 := if c.name = "" then
    { c with name := defaultContainerName pjName i } else c
  { c1 with env := c1.env ++ extra }

/-- The per-container loop of `ProwJobToPod`, at starting index `i`.
The same loop runs over the init-containers and the containers. -/
def setEnvAndName (pjName : String) (extra : List EnvVar) :
    Nat → List Container → List Container
  | _, [] => []
  | i, c :: cs =>
    containerTransform pjName extra i c :: setEnvAndName pjName extra (i + 1) cs

/-- The zero value of `v1.PodSpec`, read when a record carries no pod
template. -/
def PodSpec.zero : PodSpec := { restartPolicy := "", containers := [], initContainers := [] }

/-- `ProwJobToPod` converts a ProwJob to a Pod that will run the tests.
The external environment deriver (`EnvForSpec` composed with
`NewJobSpec`, applied to the spec, the build ID and the record name) is
an explicit function parameter; its failure aborts the conversion. -/
def ProwJobToPod
    (envForSpec : ProwJobSpec → String → String → Except String (List (String × String)))
    (pj : ProwJob) (buildID : String) : Except String Pod :=
  match envForSpec pj.spec buildID pj.metadata.name with
  | .error e => .error e
  | .ok env =>
    let ps := pj.spec.podSpec.getD PodSpec.zero
    .ok
      { metadata :=
          { name := pj.metadata.name
            labels := fun k =>
              if k = ProwJobTypeLabel then some pj.spec.type.toStr
              else if k = CreatedByProw then some "true"
              else pj.metadata.labels k
            annotations := fun k =>
              if k = ProwJobAnnKey then some pj.spec.job else none }
        spec :=
          { ps with
            restartPolicy := "Never"
            initContainers :=
              setEnvAndName pj.metadata.name (kubeEnv env) 0 ps.initContainers
            containers :=
              setEnvAndName pj.metadata.name (kubeEnv env) 0 ps.containers } }

/-- Modelled from the spec: a closed Go channel - a fixed capacity and
the already-buffered items, frozen after population. -/
structure JobChannel where
  capacity : Nat
  items : List ProwJob

/-- The body of the first (sizing) loop of `PartitionActive`: the
switch on the record's state, bumping the pending or triggered count. -/
def partitionCountStep (acc : Nat × Nat) (pj : ProwJob) : Nat × Nat :=
  match pj.status.state with
  | .pending => (acc.1 + 1, acc.2)
  | .triggered => (acc.1, acc.2 + 1)
  | _ => acc

/-- The body of the second (distributing) loop of `PartitionActive`:
the switch on the record's state, sending the record to the pending or
triggered channel. -/
def partitionDistStep (acc : List ProwJob × List ProwJob) (pj : ProwJob) :
    List ProwJob × List ProwJob :=
  match pj.status.state with
  | .pending => (acc.1 ++ [pj], acc.2)
  | .triggered => (acc.1, acc.2 ++ [pj])
  | _ => acc

/-- `PartitionActive` separates the provided prowjobs into pending and
triggered groups: a first pass counts records per relevant state to
size the channels, a second pass distributes the records, and both
channels are closed. Complete prowjobs are filtered out. -/
def PartitionActive (pjs : List ProwJob) : JobChannel × JobChannel :=
  let counts := pjs.foldl partitionCountStep (0, 0)
  let dist := pjs.foldl partitionDistStep ([], [])
  ({ capacity := counts.1, items := dist.1 },
   { capacity := counts.2, items := dist.2 })

/-- The loop body of `GetLatestProwJobs`: skip a record of the wrong
type, otherwise compare its start time against the current holder for
its job name (a missing key reads as the zero ProwJob, whose start time
is the zero time; `After` is a strict comparison) and replace the
holder only on a strictly greater start time. -/
def latestStep (jobType : ProwJobType) (latestJobs : String → Option ProwJob)
    (j : ProwJob) : String → Option ProwJob :=
  if j.spec.type ≠ jobType then latestJobs
  else
    let name := j.spec.job
    let cur := match latestJobs name with
      | some r => r.status.startTime
      | none => 0
    if cur < j.status.startTime then
      fun k => if k = name then some j else latestJobs k
    else latestJobs

/-- `GetLatestProwJobs` filters through the provided prowjobs and
returns a map of jobType jobs to their latest prowjobs. -/
def GetLatestProwJobs (pjs : List ProwJob) (jobType : ProwJobType) :
    String → Option ProwJob :=
  pjs.foldl (latestStep jobType) (fun _ => none)

/-- The numeric value of a decimal digit character. -/
def digitVal (c : Char) : Nat := c.toNat - '0'.toNat

/-- The numeric value of a big-endian decimal digit string. -/
def digitsVal (l : List Char) : Nat := l.foldl (fun a c => 10 * a + digitVal c) 0

/-- Structural induction for `Presubmit` with the hypothesis available
at every member of the continuation chain. -/
def Presubmit.inductionOn {motive : Presubmit → Prop}
    (h : ∀ nm sr cx rc mc ag sp cl ras,
      (∀ c ∈ ras, motive c) → motive (.mk nm sr cx rc mc ag sp cl ras)) :
    ∀ p, motive p
  | .mk nm sr cx rc mc ag sp cl ras =>
    h nm sr cx rc mc ag sp cl ras
      (fun c hc => Presubmit.inductionOn h c)
termination_by p => sizeOf p
decreasing_by
  have := List.sizeOf_lt_of_mem hc
  simp only [Presubmit.mk.sizeOf_spec]
  omega

/-- Structural induction for `Postsubmit` with the hypothesis available
at every member of the continuation chain. -/
def Postsubmit.inductionOn {motive : Postsubmit → Prop}
    (h : ∀ nm mc ag sp cl ras,
      (∀ c ∈ ras, motive c) → motive (.mk nm mc ag sp cl ras)) :
    ∀ p, motive p
  | .mk nm mc ag sp cl ras =>
    h nm mc ag sp cl ras (fun c hc => Postsubmit.inductionOn h c)
termination_by p => sizeOf p
decreasing_by
  have := List.sizeOf_lt_of_mem hc
  simp only [Postsubmit.mk.sizeOf_spec]
  omega

/-- Structural induction for `Periodic` with the hypothesis available
at every member of the continuation chain. -/
def Periodic.inductionOn {motive : Periodic → Prop}
    (h : ∀ nm ag sp cl ras,
      (∀ c ∈ ras, motive c) → motive (.mk nm ag sp cl ras)) :
    ∀ p, motive p
  | .mk nm ag sp cl ras =>
    h nm ag sp cl ras (fun c hc => Periodic.inductionOn h c)
termination_by p => sizeOf p
decreasing_by
  have := List.sizeOf_lt_of_mem hc
  simp only [Periodic.mk.sizeOf_spec]
  omega

/-- A tree of job names: the name at the root and the shapes of the
continuation chain, used to compare a built spec against its template
at every depth. -/
inductive NameTree where
  | node (name : String) (children : List NameTree)

/-- The name tree of a presubmit template's continuation chain. -/
def Presubmit.shape : Presubmit → NameTree
  | .mk nm _ _ _ _ _ _ _ ras =>
    .node nm (ras.attach.map fun c => Presubmit.shape c.1)
termination_by p => sizeOf p
decreasing_by
  have := List.sizeOf_lt_of_mem c.2
  simp only [Presubmit.mk.sizeOf_spec]
  omega

/-- The name tree of a postsubmit template's continuation chain. -/
def Postsubmit.shape : Postsubmit → NameTree
  | .mk nm _ _ _ _ ras =>
    .node nm (ras.attach.map fun c => Postsubmit.shape c.1)
termination_by p => sizeOf p
decreasing_by
  have := List.sizeOf_lt_of_mem c.2
  simp only [Postsubmit.mk.sizeOf_spec]
  omega

/-- The name tree of a periodic template's continuation chain. -/
def Periodic.shape : Periodic → NameTree
  | .mk nm _ _ _ ras =>
    .node nm (ras.attach.map fun c => Periodic.shape c.1)
termination_by p => sizeOf p
decreasing_by
  have := List.sizeOf_lt_of_mem c.2
  simp only [Periodic.mk.sizeOf_spec]
  omega

/-- The name tree of a built spec's continuation chain: the job name at
the root and, recursively, the shapes of `runAfterSuccess`. -/
def ProwJobSpec.shape : ProwJobSpec → NameTree
  | .mk _ j _ _ _ _ _ _ _ _ ras =>
    .node j (ras.attach.map fun c => ProwJobSpec.shape c.1)
termination_by s => sizeOf s
decreasing_by
  have := List.sizeOf_lt_of_mem c.2
  simp only [ProwJobSpec.mk.sizeOf_spec]
  omega

/-- `Refs` equal to `r` on a spec and on every descendant of its
continuation chain. -/
def ProwJobSpec.chainRefs (r : Refs) : ProwJobSpec → Prop
  | .mk _ _ refs _ _ _ _ _ _ _ ras =>
    refs = r ∧ ∀ c ∈ ras, ProwJobSpec.chainRefs r c
termination_by s => sizeOf s
decreasing_by
  rename_i hmem
  have := List.sizeOf_lt_of_mem hmem
  simp only [ProwJobSpec.mk.sizeOf_spec]
  omega

/-- A record in the Pending lifecycle state. -/
def isPending (pj : ProwJob) : Bool := pj.status.state = ProwJobState.pending

/-- A record in the Triggered lifecycle state. -/
def isTriggered (pj : ProwJob) : Bool := pj.status.state = ProwJobState.triggered

/-- A record that survives the selector's type filter for `jobType` and
belongs to job `name`. -/
def Matches (jobType : ProwJobType) (name : String) (pj : ProwJob) : Prop :=
  pj.spec.type = jobType ∧ pj.spec.job = name

/-- What the selector's map holds for one job name after processing a
prefix of the input: a missing entry means every processed matching
record had the zero start time; a present entry is a processed matching
record with positive start time, maximal among the processed matching
records, and strictly dominating every matching record processed
before it (ties keep the first seen). -/
def ClauseAt (jobType : ProwJobType) (processed : List ProwJob)
    (v : Option ProwJob) (name : String) : Prop :=
  (v = none → ∀ r' ∈ processed, Matches jobType name r' →
    r'.status.startTime = 0) ∧
  (∀ r, v = some r →
    r ∈ processed ∧ Matches jobType name r ∧ 0 < r.status.startTime ∧
    (∀ r' ∈ processed, Matches jobType name r' →
      r'.status.startTime ≤ r.status.startTime) ∧
    ∃ l1 l2, processed = l1 ++ r :: l2 ∧
      ∀ r' ∈ l1, Matches jobType name r' →
        r'.status.startTime < r.status.startTime)

/-- The selector's loop invariant: `ClauseAt` holds for every job name. -/
def LatestInv (jobType : ProwJobType) (processed : List ProwJob)
    (m : String → Option ProwJob) : Prop :=
  ∀ name : String, ClauseAt jobType processed (m name) name

/-- Object metadata with a name, no labels and no annotations. -/
def mkMeta (nm : String) : ObjectMeta :=
  { name := nm, labels := fun _ => none, annotations := fun _ => none }

/-- An environment deriver that always succeeds with one entry. -/
def exDeriver : ProwJobSpec → String → String → Except String (List (String × String)) :=
  fun _ _ _ => Except.ok [("K1", "V1")]

/-- An environment deriver that always fails. -/
def exDeriverErr : ProwJobSpec → String → String → Except String (List (String × String)) :=
  fun _ _ _ => Except.error "boom"

/-- A pod template with one nameless container, one named container
carrying a pre-existing environment entry, and no init-containers. -/
def exPodSpec : PodSpec :=
  { restartPolicy := ""
    containers := [{ name := "", env := [] },
      { name := "x", env := [{ name := "E0", value := "W" }] }]
    initContainers := [] }

/-- A concrete presubmit record carrying `exPodSpec`. -/
def exPj : ProwJob :=
  { apiVersion := "prow.k8s.io/v1"
    kind := "ProwJob"
    metadata := mkMeta "pjid"
    spec := ProwJobSpec.mk .presubmit "foo" Refs.zero true "ctx" "/test" 1
      KubernetesAgent (some exPodSpec) "default" []
    status := { startTime := 5, state := .triggered } }

/-- The pod `ProwJobToPod` materializes from `exPj` with `exDeriver`. -/
def exPod : Pod :=
  ((ProwJobToPod exDeriver exPj "1").toOption).getD
    { metadata := mkMeta "", spec := PodSpec.zero }

/-- A record whose pod template has a nameless container and a nameless
init-container at the same position. -/
def cxPj : ProwJob :=
  { apiVersion := "prow.k8s.io/v1"
    kind := "ProwJob"
    metadata := mkMeta "pj"
    spec := ProwJobSpec.mk .presubmit "job" Refs.zero true "" "" 0
      KubernetesAgent
      (some { restartPolicy := ""
              containers := [{ name := "", env := [] }]
              initContainers := [{ name := "", env := [] }] })
      "" []
    status := { startTime := 1, state := .triggered } }

/-- A record with only a name, a state and a start time, as the
partitioner and the selector see them. -/
def mkRec (id nm : String) (tp : ProwJobType) (st : ProwJobState)
    (t : Nat) : ProwJob :=
  { apiVersion := "prow.k8s.io/v1"
    kind := "ProwJob"
    metadata := mkMeta id
    spec := ProwJobSpec.mk tp nm Refs.zero false "" "" 0 "" none "" []
    status := { startTime := t, state := st } }

/-- The partitioner example records: states Pending, Triggered,
Success, Pending. -/
def exPartList : List ProwJob :=
  [mkRec "a" "ja" .presubmit .pending 1,
   mkRec "b" "jb" .presubmit .triggered 1,
   mkRec "c" "jc" .presubmit .success 1,
   mkRec "d" "jd" .presubmit .pending 1]

/-- The selector example records: job "foo" at times 1 < 2 as
presubmits, job "bar" as a postsubmit. -/
def exSelList : List ProwJob :=
  [mkRec "u1" "foo" .presubmit .triggered 1,
   mkRec "u2" "foo" .presubmit .triggered 2,
   mkRec "u3" "bar" .postsubmit .triggered 1]

/-- A presubmit template on the Kubernetes agent with a pod template. -/
def exPre : Presubmit :=
  Presubmit.mk "pre" false "ctx" "/test" 0 "kubernetes" (some PodSpec.zero) "" []

/-- A presubmit template on a non-Kubernetes agent. -/
def exPreJ : Presubmit :=
  Presubmit.mk "prej" false "" "" 0 "jenkins" none "c9" []

/-- A postsubmit template on the Kubernetes agent with a pod template
and an explicit cluster. -/
def exPost : Postsubmit :=
  Postsubmit.mk "post" 0 "kubernetes" (some PodSpec.zero) "c1" []

/-- A postsubmit template on a non-Kubernetes agent. -/
def exPostJ : Postsubmit :=
  Postsubmit.mk "postj" 0 "jenkins" none "" []

/-- A periodic template on the Kubernetes agent with a pod template. -/
def exPer : Periodic :=
  Periodic.mk "per" "kubernetes" (some PodSpec.zero) "" []

/-- A periodic template on a non-Kubernetes agent. -/
def exPerJ : Periodic :=
  Periodic.mk "perj" "jenkins" none "" []

/-! ## Theorems -/

theorem digitsVal_append_singleton (l : List Char) (c : Char) :
    digitsVal (l ++ [c]) = 10 * digitsVal l + digitVal c := by
  simp [digitsVal, List.foldl_append]

theorem digitVal_digitChar (n : Nat) (h : n < 10) :
    digitVal (Nat.digitChar n) = n := by
  have hall : ∀ m, m < 10 → digitVal (Nat.digitChar m) = m := by decide
  exact hall n h

theorem digitsVal_decChars :
    ∀ (fuel n : Nat), n < 10 ^ fuel → digitsVal (decChars fuel n) = n := by
  intro fuel
  induction fuel with
  | zero =>
    intro n h
    simp only [pow_zero, Nat.lt_one_iff] at h
    simp [decChars, digitsVal, h]
  | succ f ih =>
    intro n h
    by_cases h10 : n < 10
    · simp [decChars, h10, digitsVal, digitVal_digitChar n h10]
    · have hdiv : n / 10 < 10 ^ f := by
        rw [Nat.div_lt_iff_lt_mul (by norm_num)]
        calc n < 10 ^ (f + 1) := h
        _ = 10 ^ f * 10 := by ring
      have hmod : n % 10 < 10 := Nat.mod_lt _ (by norm_num)
      simp only [decChars, if_neg h10]
      rw [digitsVal_append_singleton, ih (n / 10) hdiv,
        digitVal_digitChar (n % 10) hmod]
      omega

theorem natToDecimal_inj (m n : Nat) (h : natToDecimal m = natToDecimal n) :
    m = n := by
  have hm : m < 10 ^ (m + 1) :=
    lt_of_lt_of_le (Nat.lt_pow_self (by norm_num) m)
      (Nat.pow_le_pow_right (by norm_num) (Nat.le_succ m))
  have hn : n < 10 ^ (n + 1) :=
    lt_of_lt_of_le (Nat.lt_pow_self (by norm_num) n)
      (Nat.pow_le_pow_right (by norm_num) (Nat.le_succ n))
  have hdata : decChars (m + 1) m = decChars (n + 1) n := by
    injection h
  calc m = digitsVal (decChars (m + 1) m) := (digitsVal_decChars _ _ hm).symm
  _ = digitsVal (decChars (n + 1) n) := by rw [hdata]
  _ = n := digitsVal_decChars _ _ hn

theorem defaultContainerName_inj (pjName : String) (i j : Nat)
    (h : defaultContainerName pjName i = defaultContainerName pjName j) :
    i = j := by
  apply natToDecimal_inj
  have hd := congrArg String.data h
  simp only [defaultContainerName, String.data_append] at hd
  have hdata := List.append_cancel_left hd
  cases hi : natToDecimal i with
  | mk di =>
    cases hj : natToDecimal j with
    | mk dj =>
      rw [hi, hj] at hdata
      simp only at hdata
      rw [hdata]

theorem attach_map_fst {α β : Type} (l : List α) (f : α → β) :
    (l.attach.map fun x => f x.1) = l.map f := by
  rw [List.attach_map_coe]

theorem presubmitSpec_shape (refs : Refs) (p : Presubmit) :
    (PresubmitSpec p refs).shape = p.shape := by
  induction p using Presubmit.inductionOn with
  | h nm sr cx rc mc ag sp cl ras ih =>
    rw [PresubmitSpec, Presubmit.shape, ProwJobSpec.shape]
    rw [attach_map_fst ras (fun c => PresubmitSpec c refs),
      attach_map_fst, attach_map_fst, List.map_map]
    exact congrArg (NameTree.node nm)
      (List.map_congr_left fun c hc => ih c hc)

theorem postsubmitSpec_shape (refs : Refs) (p : Postsubmit) :
    (PostsubmitSpec p refs).shape = p.shape := by
  induction p using Postsubmit.inductionOn with
  | h nm mc ag sp cl ras ih =>
    rw [PostsubmitSpec, Postsubmit.shape, ProwJobSpec.shape]
    rw [attach_map_fst ras (fun c => PostsubmitSpec c refs),
      attach_map_fst, attach_map_fst, List.map_map]
    exact congrArg (NameTree.node nm)
      (List.map_congr_left fun c hc => ih c hc)

theorem periodicSpec_shape (p : Periodic) :
    (PeriodicSpec p).shape = p.shape := by
  induction p using Periodic.inductionOn with
  | h nm ag sp cl ras ih =>
    rw [PeriodicSpec, Periodic.shape, ProwJobSpec.shape]
    rw [attach_map_fst ras (fun c => PeriodicSpec c),
      attach_map_fst, attach_map_fst, List.map_map]
    exact congrArg (NameTree.node nm)
      (List.map_congr_left fun c hc => ih c hc)

theorem batchSpec_shape (refs : Refs) (p : Presubmit) :
    (BatchSpec p refs).shape = p.shape := by
  induction p using Presubmit.inductionOn with
  | h nm sr cx rc mc ag sp cl ras ih =>
    rw [BatchSpec, Presubmit.shape, ProwJobSpec.shape]
    rw [attach_map_fst ras (fun c => BatchSpec c refs),
      attach_map_fst, attach_map_fst, List.map_map]
    exact congrArg (NameTree.node nm)
      (List.map_congr_left fun c hc => ih c hc)

theorem presubmitSpec_chainRefs (refs : Refs) (p : Presubmit) :
    (PresubmitSpec p refs).chainRefs refs := by
  induction p using Presubmit.inductionOn with
  | h nm sr cx rc mc ag sp cl ras ih =>
    rw [PresubmitSpec, ProwJobSpec.chainRefs]
    refine ⟨rfl, ?_⟩
    rw [attach_map_fst ras (fun c => PresubmitSpec c refs)]
    intro c hc
    obtain ⟨c0, hc0, rfl⟩ := List.mem_map.1 hc
    exact ih c0 hc0

theorem postsubmitSpec_chainRefs (refs : Refs) (p : Postsubmit) :
    (PostsubmitSpec p refs).chainRefs refs := by
  induction p using Postsubmit.inductionOn with
  | h nm mc ag sp cl ras ih =>
    rw [PostsubmitSpec, ProwJobSpec.chainRefs]
    refine ⟨rfl, ?_⟩
    rw [attach_map_fst ras (fun c => PostsubmitSpec c refs)]
    intro c hc
    obtain ⟨c0, hc0, rfl⟩ := List.mem_map.1 hc
    exact ih c0 hc0

theorem periodicSpec_chainRefs (p : Periodic) :
    (PeriodicSpec p).chainRefs Refs.zero := by
  induction p using Periodic.inductionOn with
  | h nm ag sp cl ras ih =>
    rw [PeriodicSpec, ProwJobSpec.chainRefs]
    refine ⟨rfl, ?_⟩
    rw [attach_map_fst ras (fun c => PeriodicSpec c)]
    intro c hc
    obtain ⟨c0, hc0, rfl⟩ := List.mem_map.1 hc
    exact ih c0 hc0

theorem batchSpec_chainRefs (refs : Refs) (p : Presubmit) :
    (BatchSpec p refs).chainRefs refs := by
  induction p using Presubmit.inductionOn with
  | h nm sr cx rc mc ag sp cl ras ih =>
    rw [BatchSpec, ProwJobSpec.chainRefs]
    refine ⟨rfl, ?_⟩
    rw [attach_map_fst ras (fun c => BatchSpec c refs)]
    intro c hc
    obtain ⟨c0, hc0, rfl⟩ := List.mem_map.1 hc
    exact ih c0 hc0

/-- C2: for every job template, each of `PresubmitSpec`,
`PostsubmitSpec`, `PeriodicSpec` and `BatchSpec` returns a spec whose
continuation chain mirrors the template's `RunAfterSuccess` chain as a
tree of names: at every depth the sequence has the same length and the
i-th element's job name equals the i-th child template's name (the name
trees of spec and template coincide). -/
theorem runAfterSuccess_mirrors_template (p : Presubmit) (q : Postsubmit)
    (w : Periodic) (refs : Refs) :
    (PresubmitSpec p refs).shape = p.shape ∧
    (PostsubmitSpec q refs).shape = q.shape ∧
    (PeriodicSpec w).shape = w.shape ∧
    (BatchSpec p refs).shape = p.shape :=
  ⟨presubmitSpec_shape refs p, postsubmitSpec_shape refs q,
    periodicSpec_shape w, batchSpec_shape refs p⟩

/-- C3: `PresubmitSpec`, `PostsubmitSpec` and `BatchSpec` set the same
`Refs` value on the root spec and on every descendant of the
continuation chain, while `PeriodicSpec` leaves the `Refs` field at its
zero value on the root and on every descendant. -/
theorem refs_propagation (p : Presubmit) (q : Postsubmit) (w : Periodic)
    (refs : Refs) :
    (PresubmitSpec p refs).chainRefs refs ∧
    (PostsubmitSpec q refs).chainRefs refs ∧
    (BatchSpec p refs).chainRefs refs ∧
    (PeriodicSpec w).chainRefs Refs.zero :=
  ⟨presubmitSpec_chainRefs refs p, postsubmitSpec_chainRefs refs q,
    batchSpec_chainRefs refs p, periodicSpec_chainRefs w⟩

/-- C8: each spec builder copies the pod template into the spec exactly
when the template's agent is the container-orchestration (Kubernetes)
kind, in that case setting the cluster alias to the template's cluster
with the well-known default when none is given; for any other agent the
pod template and cluster fields are left unset (at their zero values). -/
theorem agent_conditional_podSpec (p : Presubmit) (q : Postsubmit)
    (w : Periodic) (refs : Refs) :
    (∀ ps, p.agent = KubernetesAgent → p.spec = some ps →
      (PresubmitSpec p refs).podSpec = some ps ∧
      (PresubmitSpec p refs).cluster =
        (if p.cluster = "" then DefaultClusterAlias else p.cluster)) ∧
    (p.agent ≠ KubernetesAgent →
      (PresubmitSpec p refs).podSpec = none ∧
      (PresubmitSpec p refs).cluster = "") ∧
    (∀ ps, q.agent = KubernetesAgent → q.spec = some ps →
      (PostsubmitSpec q refs).podSpec = some ps ∧
      (PostsubmitSpec q refs).cluster =
        (if q.cluster = "" then DefaultClusterAlias else q.cluster)) ∧
    (q.agent ≠ KubernetesAgent →
      (PostsubmitSpec q refs).podSpec = none ∧
      (PostsubmitSpec q refs).cluster = "") ∧
    (∀ ps, w.agent = KubernetesAgent → w.spec = some ps →
      (PeriodicSpec w).podSpec = some ps ∧
      (PeriodicSpec w).cluster =
        (if w.cluster = "" then DefaultClusterAlias else w.cluster)) ∧
    (w.agent ≠ KubernetesAgent →
      (PeriodicSpec w).podSpec = none ∧
      (PeriodicSpec w).cluster = "") ∧
    (∀ ps, p.agent = KubernetesAgent → p.spec = some ps →
      (BatchSpec p refs).podSpec = some ps ∧
      (BatchSpec p refs).cluster =
        (if p.cluster = "" then DefaultClusterAlias else p.cluster)) ∧
    (p.agent ≠ KubernetesAgent →
      (BatchSpec p refs).podSpec = none ∧
      (BatchSpec p refs).cluster = "") := by
  obtain ⟨nm, sr, cx, rc, mc, ag, sp, cl, ras⟩ := p
  obtain ⟨nm', mc', ag', sp', cl', ras'⟩ := q
  obtain ⟨nm2, ag2, sp2, cl2, ras2⟩ := w
  rw [PresubmitSpec, PostsubmitSpec, PeriodicSpec, BatchSpec]
  simp only [Presubmit.agent, Presubmit.spec, Presubmit.cluster,
    Postsubmit.agent, Postsubmit.spec, Postsubmit.cluster,
    Periodic.agent, Periodic.spec, Periodic.cluster,
    ProwJobSpec.podSpec, ProwJobSpec.cluster]
  refine ⟨?_, ?_, ?_, ?_, ?_, ?_, ?_, ?_⟩ <;>
    first
      | (intro ps hag hsp; subst hag; simp [hsp])
      | (intro hag; simp [hag])

/-- C9: a freshly created record has lifecycle state Triggered - for
every spec, label mapping, identity and creation instant - and its
start timestamp is the creation instant; Triggered is the only state a
fresh record can have. -/
theorem newProwJob_initial_status (spec : ProwJobSpec)
    (labels : String → Option String) (uid : String) (now : Nat) :
    (NewProwJob spec labels uid now).status.state = ProwJobState.triggered ∧
    (NewProwJob spec labels uid now).status.startTime = now :=
  ⟨rfl, rfl⟩

theorem partition_count_fold :
    ∀ (pjs : List ProwJob) (pc tc : Nat),
    pjs.foldl partitionCountStep (pc, tc) =
      (pc + (pjs.filter isPending).length, tc + (pjs.filter isTriggered).length) := by
  intro pjs
  induction pjs with
  | nil => simp
  | cons pj rest ih =>
    intro pc tc
    simp only [List.foldl_cons]
    cases h : pj.status.state <;>
      simp [partitionCountStep, List.filter_cons, isPending, isTriggered, h, ih,
        Prod.ext_iff] <;>
      omega

theorem partition_dist_fold :
    ∀ (pjs p t : List ProwJob),
    pjs.foldl partitionDistStep (p, t) =
      (p ++ pjs.filter isPending, t ++ pjs.filter isTriggered) := by
  intro pjs
  induction pjs with
  | nil => simp
  | cons pj rest ih =>
    intro p t
    simp only [List.foldl_cons]
    cases h : pj.status.state <;>
      simp [partitionDistStep, List.filter_cons, isPending, isTriggered, h, ih]

/-- C4: for every input record list, `PartitionActive` returns a
pending group whose items are exactly the records in state Pending and
a triggered group whose items are exactly the records in state
Triggered, each with channel capacity exactly its item count; any
record in state Success, Failure, Aborted or Error appears in neither
group. -/
theorem partitionActive_groups (pjs : List ProwJob) :
    (PartitionActive pjs).1.items = pjs.filter isPending ∧
    (PartitionActive pjs).2.items = pjs.filter isTriggered ∧
    (PartitionActive pjs).1.capacity = (pjs.filter isPending).length ∧
    (PartitionActive pjs).2.capacity = (pjs.filter isTriggered).length ∧
    ∀ pj : ProwJob,
      pj.status.state = ProwJobState.success ∨
      pj.status.state = ProwJobState.failure ∨
      pj.status.state = ProwJobState.aborted ∨
      pj.status.state = ProwJobState.error →
      pj ∉ (PartitionActive pjs).1.items ∧
      pj ∉ (PartitionActive pjs).2.items := by
  have hco := partition_count_fold pjs 0 0
  have hdi := partition_dist_fold pjs [] []
  simp only [Nat.zero_add] at hco
  have h1 : (PartitionActive pjs).1.items = pjs.filter isPending := by
    show (pjs.foldl partitionDistStep ([], [])).1 = _
    rw [hdi]
    simp only [List.nil_append]
  have h2 : (PartitionActive pjs).2.items = pjs.filter isTriggered := by
    show (pjs.foldl partitionDistStep ([], [])).2 = _
    rw [hdi]
    simp only [List.nil_append]
  have h3 : (PartitionActive pjs).1.capacity = (pjs.filter isPending).length := by
    show (pjs.foldl partitionCountStep (0, 0)).1 = _
    rw [hco]
  have h4 : (PartitionActive pjs).2.capacity = (pjs.filter isTriggered).length := by
    show (pjs.foldl partitionCountStep (0, 0)).2 = _
    rw [hco]
  refine ⟨h1, h2, h3, h4, ?_⟩
  intro pj hterm
  constructor
  · rw [h1]
    intro habs
    have := (List.mem_filter.1 habs).2
    simp only [isPending, decide_eq_true_eq] at this
    rcases hterm with h | h | h | h <;> rw [h] at this <;> cases this
  · rw [h2]
    intro habs
    have := (List.mem_filter.1 habs).2
    simp only [isTriggered, decide_eq_true_eq] at this
    rcases hterm with h | h | h | h <;> rw [h] at this <;> cases this

theorem clauseAt_extend_notmatching (jobType : ProwJobType)
    (processed : List ProwJob) (v : Option ProwJob) (name : String)
    (j : ProwJob) (hc : ClauseAt jobType processed v name)
    (hnm : ¬ Matches jobType name j) :
    ClauseAt jobType (processed ++ [j]) v name := by
  constructor
  · intro hnone r' hr' hm
    rcases List.mem_append.1 hr' with h1 | h2
    · exact hc.1 hnone r' h1 hm
    · rw [List.mem_singleton] at h2
      subst h2
      exact absurd hm hnm
  · intro r hr
    obtain ⟨hmem, hm, hpos, hmax, l1, l2, hsplit, hfirst⟩ := hc.2 r hr
    refine ⟨List.mem_append_left _ hmem, hm, hpos, ?_, l1, l2 ++ [j],
      by rw [hsplit]; simp, hfirst⟩
    intro r' hr' hm'
    rcases List.mem_append.1 hr' with h1 | h2
    · exact hmax r' h1 hm'
    · rw [List.mem_singleton] at h2
      subst h2
      exact absurd hm' hnm

theorem clauseAt_extend_dominated (jobType : ProwJobType)
    (processed : List ProwJob) (v : Option ProwJob) (name : String)
    (j : ProwJob) (hc : ClauseAt jobType processed v name)
    (hdom : ∀ r, v = some r → j.status.startTime ≤ r.status.startTime)
    (hz : v = none → j.status.startTime = 0) :
    ClauseAt jobType (processed ++ [j]) v name := by
  constructor
  · intro hnone r' hr' hm
    rcases List.mem_append.1 hr' with h1 | h2
    · exact hc.1 hnone r' h1 hm
    · rw [List.mem_singleton] at h2
      subst h2
      exact hz hnone
  · intro r hr
    obtain ⟨hmem, hm, hpos, hmax, l1, l2, hsplit, hfirst⟩ := hc.2 r hr
    refine ⟨List.mem_append_left _ hmem, hm, hpos, ?_, l1, l2 ++ [j],
      by rw [hsplit]; simp, hfirst⟩
    intro r' hr' hm'
    rcases List.mem_append.1 hr' with h1 | h2
    · exact hmax r' h1 hm'
    · rw [List.mem_singleton] at h2
      subst h2
      exact hdom r hr

theorem latestStep_inv (jobType : ProwJobType) (processed : List ProwJob)
    (m : String → Option ProwJob) (j : ProwJob)
    (h : LatestInv jobType processed m) :
    LatestInv jobType (processed ++ [j]) (latestStep jobType m j) := by
  by_cases htype : j.spec.type = jobType
  · rcases hmv : m j.spec.job with _ | r0
    · by_cases hlt : 0 < j.status.startTime
      · -- empty holder, positive start time: insert j
        have hstep : latestStep jobType m j =
            fun k => if k = j.spec.job then some j else m k := by
          simp [latestStep, htype, hmv, hlt]
        rw [hstep]
        intro name
        by_cases hname : name = j.spec.job
        · subst hname
          constructor
          · intro habs
            simp at habs
          · intro r hr
            simp at hr
            subst hr
            refine ⟨List.mem_append_right _ (List.mem_singleton_self _),
              ⟨htype, rfl⟩, hlt, ?_, processed, [], rfl, ?_⟩
            · intro r' hr' hm'
              rcases List.mem_append.1 hr' with h1 | h2
              · have := (h _).1 hmv r' h1 hm'
                omega
              · rw [List.mem_singleton] at h2
                subst h2
                exact le_refl _
            · intro r' hr' hm'
              have := (h _).1 hmv r' hr' hm'
              omega
        · simp only [if_neg hname]
          refine clauseAt_extend_notmatching jobType processed (m name) name j
            (h name) ?_
          intro hm'
          exact hname hm'.2.symm
      · -- empty holder, zero start time: no insertion
        have hstep : latestStep jobType m j = m := by
          simp [latestStep, htype, hmv, hlt]
        rw [hstep]
        intro name
        by_cases hname : name = j.spec.job
        · subst hname
          refine clauseAt_extend_dominated jobType processed (m j.spec.job) _ j
            (h _) ?_ ?_
          · intro r hr
            rw [hmv] at hr
            cases hr
          · intro _
            omega
        · refine clauseAt_extend_notmatching jobType processed (m name) name j
            (h name) ?_
          intro hm'
          exact hname hm'.2.symm
    · by_cases hlt : r0.status.startTime < j.status.startTime
      · -- strictly newer than the holder: replace it
        have hstep : latestStep jobType m j =
            fun k => if k = j.spec.job then some j else m k := by
          simp [latestStep, htype, hmv, hlt]
        rw [hstep]
        obtain ⟨hmem0, hm0, hpos0, hmax0, l10, l20, hsplit0, hfirst0⟩ :=
          (h j.spec.job).2 r0 hmv
        intro name
        by_cases hname : name = j.spec.job
        · subst hname
          constructor
          · intro habs
            simp at habs
          · intro r hr
            simp at hr
            subst hr
            refine ⟨List.mem_append_right _ (List.mem_singleton_self _),
              ⟨htype, rfl⟩, by omega, ?_, processed, [], rfl, ?_⟩
            · intro r' hr' hm'
              rcases List.mem_append.1 hr' with h1 | h2
              · have := hmax0 r' h1 hm'
                omega
              · rw [List.mem_singleton] at h2
                subst h2
                exact le_refl _
            · intro r' hr' hm'
              have := hmax0 r' hr' hm'
              omega
        · simp only [if_neg hname]
          refine clauseAt_extend_notmatching jobType processed (m name) name j
            (h name) ?_
          intro hm'
          exact hname hm'.2.symm
      · -- not strictly newer: keep the first-seen holder
        have hstep : latestStep jobType m j = m := by
          simp [latestStep, htype, hmv, hlt]
        rw [hstep]
        intro name
        by_cases hname : name = j.spec.job
        · subst hname
          refine clauseAt_extend_dominated jobType processed (m j.spec.job) _ j
            (h _) ?_ ?_
          · intro r hr
            rw [hmv] at hr
            injection hr with hr
            subst hr
            omega
          · intro habs
            rw [hmv] at habs
            cases habs
        · refine clauseAt_extend_notmatching jobType processed (m name) name j
            (h name) ?_
          intro hm'
          exact hname hm'.2.symm
  · -- wrong type: filtered out, map unchanged
    have hstep : latestStep jobType m j = m := by
      simp [latestStep, htype]
    rw [hstep]
    intro name
    refine clauseAt_extend_notmatching jobType processed (m name) name j
      (h name) ?_
    intro hm'
    exact htype hm'.1

theorem latest_foldl_inv (jobType : ProwJobType) (rest : List ProwJob) :
    ∀ (processed : List ProwJob) (m : String → Option ProwJob),
      LatestInv jobType processed m →
      LatestInv jobType (processed ++ rest) (rest.foldl (latestStep jobType) m) := by
  induction rest with
  | nil =>
    intro processed m h
    simpa using h
  | cons j rest ih =>
    intro processed m h
    have h1 := latestStep_inv jobType processed m j h
    have h2 := ih (processed ++ [j]) (latestStep jobType m j) h1
    rw [List.append_assoc] at h2
    simpa using h2

theorem latestInv_empty (jobType : ProwJobType) :
    LatestInv jobType [] (fun _ => none) := by
  intro name
  constructor
  · intro _ r' hr'
    cases hr'
  · intro r hr
    cases hr

theorem getLatestProwJobs_inv (pjs : List ProwJob) (jobType : ProwJobType) :
    LatestInv jobType pjs (GetLatestProwJobs pjs jobType) := by
  have h := latest_foldl_inv jobType pjs [] (fun _ => none)
    (latestInv_empty jobType)
  simpa [GetLatestProwJobs] using h

/-- C5: the mapping returned by `GetLatestProwJobs` contains only
records of the requested job type; a present entry for a job name is a
record of that name, carries the greatest start timestamp among the
input records of that type and name, and is the first-seen among
records attaining it (replacement happens only on a strictly greater
timestamp); a job name with no record of the requested type in the
input is absent; and a job name with a matching record of positive
start time is present. -/
theorem getLatestProwJobs_latest (pjs : List ProwJob)
    (jobType : ProwJobType) (name : String) :
    (∀ r, GetLatestProwJobs pjs jobType name = some r →
      r ∈ pjs ∧ r.spec.type = jobType ∧ r.spec.job = name ∧
      (∀ r' ∈ pjs, r'.spec.type = jobType → r'.spec.job = name →
        r'.status.startTime ≤ r.status.startTime) ∧
      ∃ l1 l2, pjs = l1 ++ r :: l2 ∧
        ∀ r' ∈ l1, r'.spec.type = jobType → r'.spec.job = name →
          r'.status.startTime < r.status.startTime) ∧
    ((∀ r' ∈ pjs, r'.spec.type = jobType → r'.spec.job ≠ name) →
      GetLatestProwJobs pjs jobType name = none) ∧
    ((∃ r' ∈ pjs, r'.spec.type = jobType ∧ r'.spec.job = name ∧
        0 < r'.status.startTime) →
      ∃ r, GetLatestProwJobs pjs jobType name = some r) := by
  have hinv := getLatestProwJobs_inv pjs jobType name
  refine ⟨?_, ?_, ?_⟩
  · intro r hr
    obtain ⟨hmem, hm, _, hmax, l1, l2, hsplit, hfirst⟩ := hinv.2 r hr
    exact ⟨hmem, hm.1, hm.2,
      fun r' hr' ht hn => hmax r' hr' ⟨ht, hn⟩, l1, l2, hsplit,
      fun r' hr' ht hn => hfirst r' hr' ⟨ht, hn⟩⟩
  · intro habs
    cases hv : GetLatestProwJobs pjs jobType name with
    | none => rfl
    | some r =>
      obtain ⟨hmem, hm, _, _, _⟩ := hinv.2 r hv
      exact absurd hm.2 (habs r hmem hm.1)
  · intro ⟨r', hr', ht, hn, hpos⟩
    cases hv : GetLatestProwJobs pjs jobType name with
    | none =>
      rw [hv] at hinv
      have := hinv.1 rfl r' hr' ⟨ht, hn⟩
      omega
    | some r => exact ⟨r, rfl⟩

/-- C10: `GetLatestProwJobs` never returns a record whose start
timestamp is not strictly after the zero time: every present entry has
a positive start timestamp, and when every input record has the zero
start timestamp the mapping is empty at every job name - because
replacement compares against the map's zero-value entry with a
strictly-after test. -/
theorem getLatestProwJobs_zero_excluded (pjs : List ProwJob)
    (jobType : ProwJobType) (name : String) :
    (∀ r, GetLatestProwJobs pjs jobType name = some r →
      0 < r.status.startTime) ∧
    ((∀ r' ∈ pjs, r'.status.startTime = 0) →
      GetLatestProwJobs pjs jobType name = none) := by
  have hinv := getLatestProwJobs_inv pjs jobType name
  constructor
  · intro r hr
    exact (hinv.2 r hr).2.2.1
  · intro hz
    cases hv : GetLatestProwJobs pjs jobType name with
    | none => rfl
    | some r =>
      obtain ⟨hmem, _, hpos, _, _⟩ := hinv.2 r hv
      have := hz r hmem
      omega

theorem containerTransform_name_empty (pjName : String) (extra : List EnvVar)
    (i : Nat) (c : Container) (h : c.name = "") :
    (containerTransform pjName extra i c).name = defaultContainerName pjName i := by
  simp [containerTransform, h]

theorem containerTransform_name_kept (pjName : String) (extra : List EnvVar)
    (i : Nat) (c : Container) (h : ¬ c.name = "") :
    (containerTransform pjName extra i c).name = c.name := by
  simp [containerTransform, h]

theorem containerTransform_env (pjName : String) (extra : List EnvVar)
    (i : Nat) (c : Container) :
    (containerTransform pjName extra i c).env = c.env ++ extra := by
  by_cases h : c.name = "" <;> simp [containerTransform, h]

theorem setEnvAndName_length (pjName : String) (extra : List EnvVar) :
    ∀ (cs : List Container) (k : Nat),
      (setEnvAndName pjName extra k cs).length = cs.length := by
  intro cs
  induction cs with
  | nil => intro k; rfl
  | cons c cs ih => intro k; simp [setEnvAndName, ih]

theorem setEnvAndName_getElem? (pjName : String) (extra : List EnvVar) :
    ∀ (cs : List Container) (k i : Nat),
      (setEnvAndName pjName extra k cs)[i]? =
        (cs[i]?).map (containerTransform pjName extra (k + i)) := by
  intro cs
  induction cs with
  | nil => intro k i; simp [setEnvAndName]
  | cons c cs ih =>
    intro k i
    cases i with
    | zero => simp [setEnvAndName]
    | succ i =>
      have hidx : k + (i + 1) = (k + 1) + i := by omega
      simp [setEnvAndName, ih (k + 1) i, hidx]

/-- C6: `ProwJobToPod` fails exactly when the external environment
derivation fails - each derivation error is surfaced unchanged and no
pod is produced - and succeeds with a pod whenever derivation
succeeds. -/
theorem prowJobToPod_error_iff
    (envForSpec : ProwJobSpec → String → String → Except String (List (String × String)))
    (pj : ProwJob) (buildID : String) :
    (∀ e, ProwJobToPod envForSpec pj buildID = Except.error e ↔
      envForSpec pj.spec buildID pj.metadata.name = Except.error e) ∧
    (∀ env, envForSpec pj.spec buildID pj.metadata.name = Except.ok env →
      ∃ pod, ProwJobToPod envForSpec pj buildID = Except.ok pod) := by
  cases hv : envForSpec pj.spec buildID pj.metadata.name with
  | error e0 =>
    constructor
    · intro e
      simp [ProwJobToPod, hv]
    · intro env henv
      cases henv
  | ok env0 =>
    constructor
    · intro e
      simp [ProwJobToPod, hv]
    · intro env henv
      cases hres : ProwJobToPod envForSpec pj buildID with
      | error e => simp [ProwJobToPod, hv] at hres
      | ok pod => exact ⟨pod, rfl⟩

/-- C7: on success, the pod's name equals the record's identity, its
labels are the record's labels overridden with the provenance marker
set to "true" and the type marker set to the spec's job type, its
annotation carries the job name, and its restart policy is "Never". -/
theorem prowJobToPod_metadata
    (envForSpec : ProwJobSpec → String → String → Except String (List (String × String)))
    (pj : ProwJob) (buildID : String) (pod : Pod)
    (hpod : ProwJobToPod envForSpec pj buildID = Except.ok pod) :
    pod.metadata.name = pj.metadata.name ∧
    pod.metadata.labels = (fun k =>
      if k = ProwJobTypeLabel then some pj.spec.type.toStr
      else if k = CreatedByProw then some "true"
      else pj.metadata.labels k) ∧
    pod.metadata.annotations ProwJobAnnKey = some pj.spec.job ∧
    pod.spec.restartPolicy = "Never" := by
  cases hv : envForSpec pj.spec buildID pj.metadata.name with
  | error e =>
    simp [ProwJobToPod, hv] at hpod
  | ok env =>
    simp only [ProwJobToPod, hv, Except.ok.injEq] at hpod
    subst hpod
    exact ⟨rfl, rfl, by simp, rfl⟩

/-- C1 (amended): on success, both container lists keep their lengths;
each container (and init-container) whose name was empty is assigned
the deterministic default name built from the record identity and its
positional index, while explicit names are kept; these default names
are unique among the containers and unique among the init-containers
(a container and an init-container at the same position receive the
same default name); and every container's and init-container's
environment list is its original environment with every entry of the
derived environment mapping appended after the pre-existing entries. -/
theorem prowJobToPod_containers
    (envForSpec : ProwJobSpec → String → String → Except String (List (String × String)))
    (pj : ProwJob) (buildID : String) (env : List (String × String)) (pod : Pod)
    (hok : envForSpec pj.spec buildID pj.metadata.name = Except.ok env)
    (hpod : ProwJobToPod envForSpec pj buildID = Except.ok pod) :
    pod.spec.containers.length =
      (pj.spec.podSpec.getD PodSpec.zero).containers.length ∧
    pod.spec.initContainers.length =
      (pj.spec.podSpec.getD PodSpec.zero).initContainers.length ∧
    (∀ i c, (pj.spec.podSpec.getD PodSpec.zero).containers[i]? = some c →
      ∃ c2, pod.spec.containers[i]? = some c2 ∧
        (c.name = "" → c2.name = defaultContainerName pj.metadata.name i) ∧
        (c.name ≠ "" → c2.name = c.name) ∧
        c2.env = c.env ++ kubeEnv env ∧
        ∀ e ∈ kubeEnv env, e ∈ c2.env) ∧
    (∀ i c, (pj.spec.podSpec.getD PodSpec.zero).initContainers[i]? = some c →
      ∃ c2, pod.spec.initContainers[i]? = some c2 ∧
        (c.name = "" → c2.name = defaultContainerName pj.metadata.name i) ∧
        (c.name ≠ "" → c2.name = c.name) ∧
        c2.env = c.env ++ kubeEnv env ∧
        ∀ e ∈ kubeEnv env, e ∈ c2.env) ∧
    (∀ (i j : Nat) (ci cj : Container),
      ((pj.spec.podSpec.getD PodSpec.zero).containers[i]?).map Container.name
        = some "" →
      ((pj.spec.podSpec.getD PodSpec.zero).containers[j]?).map Container.name
        = some "" →
      pod.spec.containers[i]? = some ci → pod.spec.containers[j]? = some cj →
      i ≠ j → ci.name ≠ cj.name) ∧
    (∀ (i j : Nat) (ci cj : Container),
      ((pj.spec.podSpec.getD PodSpec.zero).initContainers[i]?).map Container.name
        = some "" →
      ((pj.spec.podSpec.getD PodSpec.zero).initContainers[j]?).map Container.name
        = some "" →
      pod.spec.initContainers[i]? = some ci →
      pod.spec.initContainers[j]? = some cj →
      i ≠ j → ci.name ≠ cj.name) := by
  simp only [ProwJobToPod, hok, Except.ok.injEq] at hpod
  subst hpod
  have hget := setEnvAndName_getElem? pj.metadata.name (kubeEnv env)
  have hone : ∀ (cs : List Container) (i : Nat) (c : Container),
      cs[i]? = some c →
      ∃ c2, (setEnvAndName pj.metadata.name (kubeEnv env) 0 cs)[i]? = some c2 ∧
        (c.name = "" → c2.name = defaultContainerName pj.metadata.name i) ∧
        (c.name ≠ "" → c2.name = c.name) ∧
        c2.env = c.env ++ kubeEnv env ∧
        ∀ e ∈ kubeEnv env, e ∈ c2.env := by
    intro cs i c hc
    refine ⟨containerTransform pj.metadata.name (kubeEnv env) i c, ?_, ?_, ?_, ?_, ?_⟩
    · rw [hget cs 0 i, hc, Nat.zero_add]
      rfl
    · intro hnm
      exact containerTransform_name_empty _ _ _ _ hnm
    · intro hnm
      exact containerTransform_name_kept _ _ _ _ hnm
    · exact containerTransform_env _ _ _ _
    · intro e he
      rw [containerTransform_env]
      exact List.mem_append_right _ he
  have huniq : ∀ (cs : List Container) (i j : Nat) (ci cj : Container),
      (cs[i]?).map Container.name = some "" →
      (cs[j]?).map Container.name = some "" →
      (setEnvAndName pj.metadata.name (kubeEnv env) 0 cs)[i]? = some ci →
      (setEnvAndName pj.metadata.name (kubeEnv env) 0 cs)[j]? = some cj →
      i ≠ j → ci.name ≠ cj.name := by
    intro cs i j ci cj hi hj hci hcj hne
    obtain ⟨c1, hc1, hc1n⟩ := Option.map_eq_some'.1 hi
    obtain ⟨c2, hc2, hc2n⟩ := Option.map_eq_some'.1 hj
    rw [hget cs 0 i, hc1, Nat.zero_add] at hci
    rw [hget cs 0 j, hc2, Nat.zero_add] at hcj
    simp only [Option.map_some', Option.some.injEq] at hci hcj
    rw [← hci, ← hcj,
      containerTransform_name_empty _ _ _ _ hc1n,
      containerTransform_name_empty _ _ _ _ hc2n]
    intro habs
    exact hne (defaultContainerName_inj _ _ _ habs)
  exact ⟨setEnvAndName_length _ _ _ 0, setEnvAndName_length _ _ _ 0,
    fun i c hc => hone _ i c hc, fun i c hc => hone _ i c hc,
    fun i j ci cj h1 h2 h3 h4 h5 => huniq _ i j ci cj h1 h2 h3 h4 h5,
    fun i j ci cj h1 h2 h3 h4 h5 => huniq _ i j ci cj h1 h2 h3 h4 h5⟩

/-- C1 counterexample: the record `cxPj` has a nameless container and a
nameless init-container, both at position 0; `ProwJobToPod` assigns
both the same default name "pj-0", so the default names assigned across
the containers and init-containers of one pod are not all unique. -/
theorem prowJobToPod_default_names_collide :
    (cxPj.spec.podSpec.getD PodSpec.zero).containers.map Container.name
      = [""] ∧
    (cxPj.spec.podSpec.getD PodSpec.zero).initContainers.map Container.name
      = [""] ∧
    ((ProwJobToPod (fun _ _ _ => Except.ok []) cxPj "1").map
      (fun pod => (pod.spec.containers.map Container.name,
        pod.spec.initContainers.map Container.name)))
      = Except.ok (["pj-0"], ["pj-0"]) :=
  ⟨rfl, rfl, rfl⟩

/-- Witness for C1 at `exPj`, `exDeriver`, build ID "1". -/
theorem prowJobToPod_containers_witness :
    exPod.spec.containers.length =
      (exPj.spec.podSpec.getD PodSpec.zero).containers.length ∧
    exPod.spec.initContainers.length =
      (exPj.spec.podSpec.getD PodSpec.zero).initContainers.length ∧
    (∀ i c, (exPj.spec.podSpec.getD PodSpec.zero).containers[i]? = some c →
      ∃ c2, exPod.spec.containers[i]? = some c2 ∧
        (c.name = "" → c2.name = defaultContainerName exPj.metadata.name i) ∧
        (c.name ≠ "" → c2.name = c.name) ∧
        c2.env = c.env ++ kubeEnv [("K1", "V1")] ∧
        ∀ e ∈ kubeEnv [("K1", "V1")], e ∈ c2.env) ∧
    (∀ i c, (exPj.spec.podSpec.getD PodSpec.zero).initContainers[i]? = some c →
      ∃ c2, exPod.spec.initContainers[i]? = some c2 ∧
        (c.name = "" → c2.name = defaultContainerName exPj.metadata.name i) ∧
        (c.name ≠ "" → c2.name = c.name) ∧
        c2.env = c.env ++ kubeEnv [("K1", "V1")] ∧
        ∀ e ∈ kubeEnv [("K1", "V1")], e ∈ c2.env) ∧
    (∀ (i j : Nat) (ci cj : Container),
      ((exPj.spec.podSpec.getD PodSpec.zero).containers[i]?).map Container.name
        = some "" →
      ((exPj.spec.podSpec.getD PodSpec.zero).containers[j]?).map Container.name
        = some "" →
      exPod.spec.containers[i]? = some ci → exPod.spec.containers[j]? = some cj →
      i ≠ j → ci.name ≠ cj.name) ∧
    (∀ (i j : Nat) (ci cj : Container),
      ((exPj.spec.podSpec.getD PodSpec.zero).initContainers[i]?).map Container.name
        = some "" →
      ((exPj.spec.podSpec.getD PodSpec.zero).initContainers[j]?).map Container.name
        = some "" →
      exPod.spec.initContainers[i]? = some ci →
      exPod.spec.initContainers[j]? = some cj →
      i ≠ j → ci.name ≠ cj.name) :=
  prowJobToPod_containers exDeriver exPj "1" [("K1", "V1")] exPod rfl rfl

/-- Witness for C6 at `exPj` with the failing and succeeding derivers. -/
theorem prowJobToPod_error_iff_witness :
    (ProwJobToPod exDeriverErr exPj "1" = Except.error "boom" ↔
      exDeriverErr exPj.spec "1" exPj.metadata.name = Except.error "boom") ∧
    (∃ pod, ProwJobToPod exDeriver exPj "1" = Except.ok pod) :=
  ⟨(prowJobToPod_error_iff exDeriverErr exPj "1").1 "boom",
    (prowJobToPod_error_iff exDeriver exPj "1").2 [("K1", "V1")] rfl⟩

/-- Witness for C7 at `exPj`, `exDeriver`, build ID "1". -/
theorem prowJobToPod_metadata_witness :
    exPod.metadata.name = exPj.metadata.name ∧
    exPod.metadata.labels = (fun k =>
      if k = ProwJobTypeLabel then some exPj.spec.type.toStr
      else if k = CreatedByProw then some "true"
      else exPj.metadata.labels k) ∧
    exPod.metadata.annotations ProwJobAnnKey = some exPj.spec.job ∧
    exPod.spec.restartPolicy = "Never" :=
  prowJobToPod_metadata exDeriver exPj "1" exPod rfl

/-- Witness for C4 at the four-record example, checking the Success
record. -/
theorem partitionActive_groups_witness :
    (PartitionActive exPartList).1.items = exPartList.filter isPending ∧
    (PartitionActive exPartList).2.items = exPartList.filter isTriggered ∧
    (PartitionActive exPartList).1.capacity =
      (exPartList.filter isPending).length ∧
    (PartitionActive exPartList).2.capacity =
      (exPartList.filter isTriggered).length ∧
    mkRec "c" "jc" .presubmit .success 1 ∉ (PartitionActive exPartList).1.items ∧
    mkRec "c" "jc" .presubmit .success 1 ∉ (PartitionActive exPartList).2.items :=
  ⟨(partitionActive_groups exPartList).1,
    (partitionActive_groups exPartList).2.1,
    (partitionActive_groups exPartList).2.2.1,
    (partitionActive_groups exPartList).2.2.2.1,
    ((partitionActive_groups exPartList).2.2.2.2
      (mkRec "c" "jc" .presubmit .success 1) (Or.inl rfl)).1,
    ((partitionActive_groups exPartList).2.2.2.2
      (mkRec "c" "jc" .presubmit .success 1) (Or.inl rfl)).2⟩

/-- Witness for C5 at the selector example: "foo" maps to the later
record, "bar" is absent from the presubmit selection, and "foo" is
present. -/
theorem getLatestProwJobs_latest_witness :
    ((mkRec "u2" "foo" .presubmit .triggered 2) ∈ exSelList ∧
      (mkRec "u2" "foo" .presubmit .triggered 2).spec.type = .presubmit ∧
      (mkRec "u2" "foo" .presubmit .triggered 2).spec.job = "foo" ∧
      (∀ r' ∈ exSelList, r'.spec.type = .presubmit → r'.spec.job = "foo" →
        r'.status.startTime ≤
          (mkRec "u2" "foo" .presubmit .triggered 2).status.startTime) ∧
      ∃ l1 l2, exSelList = l1 ++ (mkRec "u2" "foo" .presubmit .triggered 2) :: l2 ∧
        ∀ r' ∈ l1, r'.spec.type = .presubmit → r'.spec.job = "foo" →
          r'.status.startTime <
            (mkRec "u2" "foo" .presubmit .triggered 2).status.startTime) ∧
    GetLatestProwJobs exSelList .presubmit "bar" = none ∧
    (∃ r, GetLatestProwJobs exSelList .presubmit "foo" = some r) :=
  ⟨(getLatestProwJobs_latest exSelList .presubmit "foo").1
      (mkRec "u2" "foo" .presubmit .triggered 2) rfl,
    (getLatestProwJobs_latest exSelList .presubmit "bar").2.1
      (by intro r' hr'; fin_cases hr' <;> decide),
    (getLatestProwJobs_latest exSelList .presubmit "foo").2.2
      ⟨mkRec "u2" "foo" .presubmit .triggered 2,
        List.mem_cons_of_mem _ (List.mem_cons_self _ _), rfl, rfl, by decide⟩⟩

/-- Witness for C10: a present entry of the selector example has a
positive start time, and a list whose only record has the zero start
time selects nothing. -/
theorem getLatestProwJobs_zero_excluded_witness :
    0 < (mkRec "u2" "foo" .presubmit .triggered 2).status.startTime ∧
    GetLatestProwJobs [mkRec "z1" "zed" .presubmit .triggered 0]
      .presubmit "zed" = none :=
  ⟨(getLatestProwJobs_zero_excluded exSelList .presubmit "foo").1
      (mkRec "u2" "foo" .presubmit .triggered 2) rfl,
    (getLatestProwJobs_zero_excluded
        [mkRec "z1" "zed" .presubmit .triggered 0] .presubmit "zed").2
      (by intro r' hr'; fin_cases hr' <;> rfl)⟩

/-- Witness for C8 at concrete Kubernetes and non-Kubernetes templates
of each kind. -/
theorem agent_conditional_podSpec_witness :
    ((PresubmitSpec exPre Refs.zero).podSpec = some PodSpec.zero ∧
      (PresubmitSpec exPre Refs.zero).cluster =
        (if exPre.cluster = "" then DefaultClusterAlias else exPre.cluster)) ∧
    ((PresubmitSpec exPreJ Refs.zero).podSpec = none ∧
      (PresubmitSpec exPreJ Refs.zero).cluster = "") ∧
    ((PostsubmitSpec exPost Refs.zero).podSpec = some PodSpec.zero ∧
      (PostsubmitSpec exPost Refs.zero).cluster =
        (if exPost.cluster = "" then DefaultClusterAlias else exPost.cluster)) ∧
    ((PostsubmitSpec exPostJ Refs.zero).podSpec = none ∧
      (PostsubmitSpec exPostJ Refs.zero).cluster = "") ∧
    ((PeriodicSpec exPer).podSpec = some PodSpec.zero ∧
      (PeriodicSpec exPer).cluster =
        (if exPer.cluster = "" then DefaultClusterAlias else exPer.cluster)) ∧
    ((PeriodicSpec exPerJ).podSpec = none ∧
      (PeriodicSpec exPerJ).cluster = "") ∧
    ((BatchSpec exPre Refs.zero).podSpec = some PodSpec.zero ∧
      (BatchSpec exPre Refs.zero).cluster =
        (if exPre.cluster = "" then DefaultClusterAlias else exPre.cluster)) ∧
    ((BatchSpec exPreJ Refs.zero).podSpec = none ∧
      (BatchSpec exPreJ Refs.zero).cluster = "") :=
  ⟨(agent_conditional_podSpec exPre exPost exPer Refs.zero).1
      PodSpec.zero rfl rfl,
    (agent_conditional_podSpec exPreJ exPost exPer Refs.zero).2.1 (by decide),
    (agent_conditional_podSpec exPre exPost exPer Refs.zero).2.2.1
      PodSpec.zero rfl rfl,
    (agent_conditional_podSpec exPre exPostJ exPer Refs.zero).2.2.2.1
      (by decide),
    (agent_conditional_podSpec exPre exPost exPer Refs.zero).2.2.2.2.1
      PodSpec.zero rfl rfl,
    (agent_conditional_podSpec exPre exPost exPerJ Refs.zero).2.2.2.2.2.1
      (by decide),
    (agent_conditional_podSpec exPre exPost exPer Refs.zero).2.2.2.2.2.2.1
      PodSpec.zero rfl rfl,
    (agent_conditional_podSpec exPreJ exPost exPer Refs.zero).2.2.2.2.2.2.2
      (by decide)⟩

end Pjutil
